import Mathlib

/-!
Shallow embedding of the resilience decision engine of
`src/frontend/app_v2_resilient.py`: the circuit breaker state machine
(`CircuitBreaker`, lines 19-55), the TTL cache (`product_cache` /
`get_cached_products`, lines 60-76), the static fallback
(`get_fallback_products`, lines 78-84), and the orchestrating request
handler (`index`, lines 132-187).

Timestamps and durations are integers (seconds); Python `datetime`
arithmetic `a - b > timedelta(seconds = d)` is embedded as `a - b > d`
over `Int`.  The injected downstream call (`fetch_from_backend`) is
embedded as an explicit outcome parameter: a successful HTTP round trip
carries the payload the backend returned, any raised exception (timeout,
connection error, non-2xx status) is the failure outcome.  Raised
exceptions are embedded as `Except.error`; prices, which the engine never
computes with, are recorded in integer cents.
-/

/-- The `CircuitState` enum (lines 14-17). -/
inductive CircuitState where
  | CLOSED
  | OPEN
  | HALF_OPEN
deriving DecidableEq, Repr

/-- The `CircuitBreaker` object's fields (`__init__`, lines 21-26).
`failure_count` starts at 0, `last_failure_time` at `None`, `state` at
CLOSED. -/
structure CircuitBreaker where
  failure_threshold : Nat
  timeout : Int
  failure_count : Nat
  last_failure_time : Option Int
  state : CircuitState
deriving DecidableEq, Repr

/-- `CircuitBreaker.__init__` (lines 21-26). -/
def CircuitBreaker.init (threshold : Nat) (timeout : Int) : CircuitBreaker :=
  { failure_threshold := threshold
    timeout := timeout
    failure_count := 0
    last_failure_time := none
    state := CircuitState.CLOSED }

/-- Lines 31-36 of `CircuitBreaker.call`: the pre-call OPEN check.  Returns
whether the attempt is permitted together with the breaker afterwards.  In
OPEN, permission requires `now - last_failure_time > timeout` and as a side
effect moves the state to HALF_OPEN; otherwise the code raises (denial)
with the breaker untouched.  In CLOSED and HALF_OPEN the attempt is always
permitted with no state change.  A `last_failure_time` of `None` while OPEN
(unreachable from the initial state) raises a `TypeError` at line 32, which
propagates to the caller exactly like the denial exception. -/
def allowAttempt (b : CircuitBreaker) (now : Int) : Bool × CircuitBreaker :=
  match b.state with
  | CircuitState.OPEN =>
    match b.last_failure_time with
    | some t =>
        if now - t > b.timeout then
          (true, { b with state := CircuitState.HALF_OPEN })
        else
          (false, b)
    | none => (false, b)
  | _ => (true, b)

/-- Lines 43-44 of `CircuitBreaker.call`: the success branch resets the
failure count and closes the circuit unconditionally. -/
def reportSuccess (b : CircuitBreaker) : CircuitBreaker :=
  { b with failure_count := 0, state := CircuitState.CLOSED }

/-- Lines 47-54 of `CircuitBreaker.call`: the except branch increments the
failure count, records the failure time, and opens the circuit once the
incremented count reaches the threshold. -/
def reportFailure (b : CircuitBreaker) (now : Int) : CircuitBreaker :=
  if b.failure_threshold ≤ b.failure_count + 1 then
    { b with
        failure_count := b.failure_count + 1
        last_failure_time := some now
        state := CircuitState.OPEN }
  else
    { b with
        failure_count := b.failure_count + 1
        last_failure_time := some now }

/-- A product record as served by the backend and by the fallback; prices
in integer cents (the engine never computes with them). -/
structure Product where
  id : Nat
  name : String
  price_cents : Nat
deriving DecidableEq, Repr

/-- A payload is the `products` list a call (or the cache, or the fallback)
yields. -/
abbrev Payload := List Product

/-- The `product_cache` dict (lines 61-65): `data` and `timestamp` both
start as `None`; `ttl` is 300 seconds. -/
structure ProductCache where
  data : Option Payload
  timestamp : Option Int
  ttl : Int
deriving DecidableEq, Repr

/-- `get_cached_products` (lines 67-76): `None` when no data was ever
stored, `None` when `now - timestamp > ttl`, the stored payload otherwise.
The entry is never purged; the read does not mutate the cache.  (A `None`
timestamp with non-`None` data cannot occur: lines 96-97 set both.) -/
def get_cached_products (c : ProductCache) (now : Int) : Option Payload :=
  match c.data with
  | none => none
  | some d =>
    match c.timestamp with
    | none => none
    | some ts => if now - ts > c.ttl then none else some d

/-- Lines 96-97 of `fetch_from_backend`: a successful fetch overwrites the
cache slot wholesale. -/
def cache_put (c : ProductCache) (p : Payload) (now : Int) : ProductCache :=
  { c with data := some p, timestamp := some now }

/-- `get_fallback_products` (lines 78-84): the static fallback catalog. -/
def get_fallback_products : Payload :=
  [ { id := 0, name := r"Laptop (cached)", price_cents := 99999 }
  , { id := 0, name := r"Mouse (cached)", price_cents := 2999 }
  , { id := 0, name := r"Keyboard (cached)", price_cents := 7999 } ]

/-- The outcome of one invocation of the injected downstream call:
`fetch_from_backend` either returns the backend's product list or raises. -/
inductive CallOutcome where
  | success (p : Payload)
  | failure
deriving DecidableEq, Repr

/-- The exceptions that escape `CircuitBreaker.call` (line 36 and
line 55). -/
inductive CallError where
  | circuitOpen
  | callFailed
deriving DecidableEq, Repr

/-- `fetch_from_backend` (lines 86-99) under a given outcome: on success it
stores the fresh payload in the cache (lines 96-97) and returns it; on
failure it raises and leaves the cache untouched. -/
def fetch_from_backend (c : ProductCache) (now : Int) :
    CallOutcome → Except CallError (Payload × ProductCache)
  | CallOutcome.success p => Except.ok (p, cache_put c p now)
  | CallOutcome.failure => Except.error CallError.callFailed

/-- What one `circuit_breaker.call(fetch_from_backend)` leaves behind:
the returned-or-raised value, the breaker and cache afterwards, and
whether the injected function was actually invoked (line 39 reached). -/
structure CallResult where
  result : Except CallError Payload
  breaker : CircuitBreaker
  cache : ProductCache
  invoked : Bool
deriving Repr

/-- `CircuitBreaker.call` (lines 28-55) applied to `fetch_from_backend`:
the OPEN pre-check (lines 31-36) runs before the try block, so a denial
raises without invoking the function and without touching the counters;
a success runs lines 43-45, a raise from the function runs lines 47-55
and re-raises. -/
def CircuitBreaker.call (b : CircuitBreaker) (c : ProductCache) (now : Int)
    (outcome : CallOutcome) : CallResult :=
  match allowAttempt b now with
  | (true, b1) =>
    match fetch_from_backend c now outcome with
    | Except.ok (p, c1) => ⟨Except.ok p, reportSuccess b1, c1, true⟩
    | Except.error e => ⟨Except.error e, reportFailure b1 now, c, true⟩
  | (false, b1) => ⟨Except.error CallError.circuitOpen, b1, c, false⟩

/-- The mutable module state the handler reads and writes: the global
`circuit_breaker` (line 58) and `product_cache` (lines 61-65). -/
structure EngineState where
  breaker : CircuitBreaker
  cache : ProductCache
deriving DecidableEq, Repr

/-- The tagged result the handler renders: which badge (LIVE / CACHED /
FALLBACK) and which product list reached the page. -/
inductive ResilienceResult where
  | Live (p : Payload)
  | Cached (p : Payload)
  | Fallback (p : Payload)
deriving DecidableEq, Repr

/-- What one request to `index` leaves behind: the rendered result, the
module state afterwards, and whether the downstream call was invoked. -/
structure ExecResult where
  result : ResilienceResult
  engine : EngineState
  invoked : Bool
deriving DecidableEq, Repr

/-- The `index` handler (lines 132-187): try the protected call; on any
exception fall back to the cache and then to the static catalog.  The
cache test at line 150 is Python truthiness (`if cached:`), so both a
`None` and an empty cached list take the fallback branch. -/
def index (s : EngineState) (now : Int) (outcome : CallOutcome) : ExecResult :=
  let r := CircuitBreaker.call s.breaker s.cache now outcome
  match r.result with
  | Except.ok p => ⟨ResilienceResult.Live p, ⟨r.breaker, r.cache⟩, r.invoked⟩
  | Except.error _ =>
    match get_cached_products r.cache now with
    | some cached =>
      if cached.isEmpty then
        ⟨ResilienceResult.Fallback get_fallback_products, ⟨r.breaker, r.cache⟩, r.invoked⟩
      else
        ⟨ResilienceResult.Cached cached, ⟨r.breaker, r.cache⟩, r.invoked⟩
    | none =>
      ⟨ResilienceResult.Fallback get_fallback_products, ⟨r.breaker, r.cache⟩, r.invoked⟩

/-- Repeated failure reports (for the threshold properties): fold
`reportFailure` over a list of failure times. -/
def iterateFailures (b : CircuitBreaker) : List Int → CircuitBreaker
  | [] => b
  | t :: ts => iterateFailures (reportFailure b t) ts

/-- One application of a public breaker operation, for the reachability
relation. -/
inductive BreakerOp where
  | allow (now : Int)
  | success
  | failure (now : Int)
deriving DecidableEq, Repr

/-- Apply one public operation to the breaker, keeping only the state. -/
def applyOp (b : CircuitBreaker) : BreakerOp → CircuitBreaker
  | BreakerOp.allow now => (allowAttempt b now).2
  | BreakerOp.success => reportSuccess b
  | BreakerOp.failure now => reportFailure b now

/-- Breaker states reachable from a freshly constructed breaker via the
public operations. -/
inductive BreakerReachable (T : Nat) (d : Int) : CircuitBreaker → Prop where
  | init : BreakerReachable T d (CircuitBreaker.init T d)
  | step {b : CircuitBreaker} (hb : BreakerReachable T d b) (op : BreakerOp) :
      BreakerReachable T d (applyOp b op)

lemma iterateFailures_failure_count (ts : List Int) (b : CircuitBreaker) :
    (iterateFailures b ts).failure_count = b.failure_count + ts.length := by
  induction ts generalizing b with
  | nil => simp [iterateFailures]
  | cons t ts ih =>
      simp only [iterateFailures, ih, reportFailure]
      split <;> simp <;> omega

lemma iterateFailures_closed (ts : List Int) (b : CircuitBreaker)
    (h1 : b.state = CircuitState.CLOSED)
    (h2 : b.failure_count + ts.length < b.failure_threshold) :
    (iterateFailures b ts).state = CircuitState.CLOSED := by
  induction ts generalizing b with
  | nil => simpa [iterateFailures] using h1
  | cons t ts ih =>
      simp only [iterateFailures]
      simp only [List.length_cons] at h2
      have hlt : ¬ b.failure_threshold ≤ b.failure_count + 1 := by omega
      apply ih
      · simp [reportFailure, hlt, h1]
      · simp [reportFailure, hlt]
        omega

lemma iterateFailures_opens (ts : List Int) (b : CircuitBreaker)
    (hne : ts ≠ [])
    (h : b.failure_threshold ≤ b.failure_count + ts.length) :
    (iterateFailures b ts).state = CircuitState.OPEN := by
  induction ts generalizing b with
  | nil => exact absurd rfl hne
  | cons t ts ih =>
      cases ts with
      | nil =>
          simp only [List.length_cons, List.length_nil] at h
          simp [iterateFailures, reportFailure, h]
      | cons t2 ts2 =>
          simp only [iterateFailures]
          apply ih _ (by simp)
          simp only [List.length_cons] at h ⊢
          simp only [reportFailure]
          split <;> simp <;> omega

/-- C3: starting from a freshly constructed breaker (CLOSED, zero
failures), any `failureThreshold`-long run of `ReportFailure` calls ends in
OPEN, any `failureThreshold - 1`-long run ends still CLOSED, and each
single `ReportFailure` increments `consecutiveFailures` by one and stamps
`lastFailureTime` with the supplied time. -/
theorem C3_threshold_opens (T : Nat) (d : Int) (ts ts' : List Int)
    (b : CircuitBreaker) (now : Int)
    (hT : 0 < T) (hlen : ts.length = T) (hlen' : ts'.length = T - 1) :
    (iterateFailures (CircuitBreaker.init T d) ts).state = CircuitState.OPEN ∧
    (iterateFailures (CircuitBreaker.init T d) ts').state = CircuitState.CLOSED ∧
    (reportFailure b now).failure_count = b.failure_count + 1 ∧
    (reportFailure b now).last_failure_time = some now := by
  refine ⟨?_, ?_, ?_, ?_⟩
  · apply iterateFailures_opens
    · intro hnil; rw [hnil] at hlen; simp at hlen; omega
    · simp [CircuitBreaker.init, hlen]
  · apply iterateFailures_closed
    · rfl
    · simp [CircuitBreaker.init, hlen']
      omega
  · simp only [reportFailure]; split <;> rfl
  · simp only [reportFailure]; split <;> rfl

theorem C3_threshold_opens_witness :
    (0 < 3 ∧ ([(0 : Int), 1, 2]).length = 3 ∧ ([(5 : Int), 6]).length = 3 - 1) ∧
    (iterateFailures (CircuitBreaker.init 3 30) [0, 1, 2]).state = CircuitState.OPEN ∧
    (iterateFailures (CircuitBreaker.init 3 30) [5, 6]).state = CircuitState.CLOSED ∧
    (reportFailure (CircuitBreaker.init 3 30) 7).failure_count
      = (CircuitBreaker.init 3 30).failure_count + 1 ∧
    (reportFailure (CircuitBreaker.init 3 30) 7).last_failure_time = some 7 :=
  ⟨by decide,
   C3_threshold_opens 3 30 [0, 1, 2] [5, 6] (CircuitBreaker.init 3 30) 7
     (by decide) (by decide) (by decide)⟩

/-- C4: while the breaker is OPEN and `now - lastFailureTime ≤ timeout`,
the attempt is denied and `index` never invokes the injected call. -/
theorem C4_fail_fast_while_open (s : EngineState) (now t : Int)
    (outcome : CallOutcome)
    (hs : s.breaker.state = CircuitState.OPEN)
    (ht : s.breaker.last_failure_time = some t)
    (hw : now - t ≤ s.breaker.timeout) :
    (allowAttempt s.breaker now).1 = false ∧
    (index s now outcome).invoked = false := by
  have hdeny : allowAttempt s.breaker now = (false, s.breaker) := by
    simp [allowAttempt, hs, ht]
    omega
  refine ⟨by simp [hdeny], ?_⟩
  simp only [index, CircuitBreaker.call, hdeny]
  cases hcache : get_cached_products s.cache now
  · simp [hcache]
  · simp only [hcache]
    split <;> rfl

theorem C4_fail_fast_while_open_witness :
    (allowAttempt (CircuitBreaker.mk 3 30 3 (some 0) CircuitState.OPEN) 10).1 = false ∧
    (index ⟨CircuitBreaker.mk 3 30 3 (some 0) CircuitState.OPEN, ⟨none, none, 300⟩⟩
        10 (CallOutcome.success [])).invoked = false :=
  C4_fail_fast_while_open
    ⟨CircuitBreaker.mk 3 30 3 (some 0) CircuitState.OPEN, ⟨none, none, 300⟩⟩
    10 0 (CallOutcome.success []) rfl rfl (by decide)

/-- C5: a denied attempt (OPEN, within the timeout window) leaves the
breaker's failure count, last failure time, and state exactly as they
were: denial is never reported as a new failure. -/
theorem C5_denial_preserves_breaker (s : EngineState) (now t : Int)
    (outcome : CallOutcome)
    (hs : s.breaker.state = CircuitState.OPEN)
    (ht : s.breaker.last_failure_time = some t)
    (hw : now - t ≤ s.breaker.timeout) :
    (index s now outcome).engine.breaker.failure_count = s.breaker.failure_count ∧
    (index s now outcome).engine.breaker.last_failure_time = s.breaker.last_failure_time ∧
    (index s now outcome).engine.breaker.state = s.breaker.state := by
  have hdeny : allowAttempt s.breaker now = (false, s.breaker) := by
    simp [allowAttempt, hs, ht]
    omega
  have hbr : (index s now outcome).engine.breaker = s.breaker := by
    simp only [index, CircuitBreaker.call, hdeny]
    cases hcache : get_cached_products s.cache now
    · simp [hcache]
    · simp only [hcache]
      split <;> rfl
  simp [hbr]

theorem C5_denial_preserves_breaker_witness :
    (index ⟨CircuitBreaker.mk 3 30 4 (some 2) CircuitState.OPEN, ⟨none, none, 300⟩⟩
        20 CallOutcome.failure).engine.breaker.failure_count
      = (CircuitBreaker.mk 3 30 4 (some 2) CircuitState.OPEN).failure_count ∧
    (index ⟨CircuitBreaker.mk 3 30 4 (some 2) CircuitState.OPEN, ⟨none, none, 300⟩⟩
        20 CallOutcome.failure).engine.breaker.last_failure_time
      = (CircuitBreaker.mk 3 30 4 (some 2) CircuitState.OPEN).last_failure_time ∧
    (index ⟨CircuitBreaker.mk 3 30 4 (some 2) CircuitState.OPEN, ⟨none, none, 300⟩⟩
        20 CallOutcome.failure).engine.breaker.state
      = (CircuitBreaker.mk 3 30 4 (some 2) CircuitState.OPEN).state :=
  C5_denial_preserves_breaker
    ⟨CircuitBreaker.mk 3 30 4 (some 2) CircuitState.OPEN, ⟨none, none, 300⟩⟩
    20 2 CallOutcome.failure rfl rfl (by decide)

/-- C6: once OPEN and past the timeout window, the attempt query is
permitted and lazily moves the state to HALF_OPEN, so any subsequent
attempt query observes HALF_OPEN (and is itself permitted). -/
theorem C6_half_open_transition (b : CircuitBreaker) (now now' t : Int)
    (hs : b.state = CircuitState.OPEN)
    (ht : b.last_failure_time = some t)
    (hw : b.timeout < now - t) :
    (allowAttempt b now).1 = true ∧
    (allowAttempt b now).2.state = CircuitState.HALF_OPEN ∧
    (allowAttempt (allowAttempt b now).2 now').1 = true ∧
    (allowAttempt (allowAttempt b now).2 now').2.state = CircuitState.HALF_OPEN := by
  have hallow : allowAttempt b now = (true, { b with state := CircuitState.HALF_OPEN }) := by
    simp [allowAttempt, hs, ht]
    omega
  rw [hallow]
  exact ⟨rfl, rfl, rfl, rfl⟩

theorem C6_half_open_transition_witness :
    (allowAttempt (CircuitBreaker.mk 3 30 3 (some 0) CircuitState.OPEN) 31).1 = true ∧
    (allowAttempt (CircuitBreaker.mk 3 30 3 (some 0) CircuitState.OPEN) 31).2.state
      = CircuitState.HALF_OPEN ∧
    (allowAttempt (allowAttempt (CircuitBreaker.mk 3 30 3 (some 0) CircuitState.OPEN) 31).2 31).1
      = true ∧
    (allowAttempt (allowAttempt (CircuitBreaker.mk 3 30 3 (some 0) CircuitState.OPEN) 31).2 31).2.state
      = CircuitState.HALF_OPEN :=
  C6_half_open_transition (CircuitBreaker.mk 3 30 3 (some 0) CircuitState.OPEN)
    31 31 0 rfl rfl (by decide)

/-- C7: reporting a success resets the failure count to 0 and the state to
CLOSED, whatever the prior state (HALF_OPEN included) and prior count. -/
theorem C7_success_resets (b : CircuitBreaker) :
    (reportSuccess b).failure_count = 0 ∧
    (reportSuccess b).state = CircuitState.CLOSED :=
  ⟨rfl, rfl⟩

/-- C8: a failure reported in HALF_OPEN whose resulting cumulative count is
still below the threshold leaves the state HALF_OPEN (neither CLOSED nor
OPEN). -/
theorem C8_half_open_subthreshold (b : CircuitBreaker) (now : Int)
    (hs : b.state = CircuitState.HALF_OPEN)
    (hc : b.failure_count + 1 < b.failure_threshold) :
    (reportFailure b now).state = CircuitState.HALF_OPEN := by
  have hlt : ¬ b.failure_threshold ≤ b.failure_count + 1 := by omega
  simp [reportFailure, hlt, hs]

theorem C8_half_open_subthreshold_witness :
    (reportFailure (CircuitBreaker.mk 5 30 1 (some 0) CircuitState.HALF_OPEN) 9).state
      = CircuitState.HALF_OPEN :=
  C8_half_open_subthreshold (CircuitBreaker.mk 5 30 1 (some 0) CircuitState.HALF_OPEN)
    9 rfl (by decide)

/-- C9: the cache read returns the stored payload exactly when an entry
exists (data and capture time both set) and `now - capturedAt ≤ ttl`;
an expired or absent entry reads as absent without being purged, and
reading absent stays absent at any later time. -/
theorem C9_cache_get (c : ProductCache) (now now' : Int) (p : Payload)
    (hmono : now ≤ now') :
    (get_cached_products c now = some p ↔
      c.data = some p ∧ ∃ ts, c.timestamp = some ts ∧ now - ts ≤ c.ttl) ∧
    (get_cached_products c now = none → get_cached_products c now' = none) := by
  cases hd : c.data with
  | none => simp [get_cached_products, hd]
  | some d =>
      cases hts : c.timestamp with
      | none => simp [get_cached_products, hd, hts]
      | some ts =>
          by_cases hexp : c.ttl < now - ts
          · have hexp' : c.ttl < now' - ts := by omega
            have hg : get_cached_products c now = none := by
              simp [get_cached_products, hd, hts, hexp]
            have hg' : get_cached_products c now' = none := by
              simp [get_cached_products, hd, hts, hexp']
            rw [hg, hg']
            constructor
            · constructor
              · intro h
                exact Option.noConfusion h
              · rintro ⟨hdp, t2, ht2, hle⟩
                injection ht2 with ht2e
                omega
            · intro _
              rfl
          · have hle : now - ts ≤ c.ttl := by omega
            have hg : get_cached_products c now = some d := by
              simp [get_cached_products, hd, hts, hexp]
            rw [hg]
            constructor
            · constructor
              · intro h
                injection h with he
                exact ⟨by rw [he], ts, rfl, hle⟩
              · exact fun h => h.1
            · intro h
              exact Option.noConfusion h

/-- A concrete product for the witnesses. -/
def pEx : Product :=
  { id := 1, name := r"Laptop", price_cents := 99999 }

theorem C9_cache_get_witness :
    ((get_cached_products (cache_put ⟨none, none, 300⟩ [pEx] 0) 299 = some [pEx] ↔
        (cache_put ⟨none, none, 300⟩ [pEx] 0).data = some [pEx] ∧
        ∃ ts, (cache_put ⟨none, none, 300⟩ [pEx] 0).timestamp = some ts ∧
          (299 : Int) - ts ≤ (cache_put ⟨none, none, 300⟩ [pEx] 0).ttl) ∧
      (get_cached_products (cache_put ⟨none, none, 300⟩ [pEx] 0) 299 = none →
        get_cached_products (cache_put ⟨none, none, 300⟩ [pEx] 0) 301 = none)) ∧
    get_cached_products (cache_put ⟨none, none, 300⟩ [pEx] 0) 299 = some [pEx] ∧
    get_cached_products (cache_put ⟨none, none, 300⟩ [pEx] 0) 301 = none :=
  ⟨C9_cache_get (cache_put ⟨none, none, 300⟩ [pEx] 0) 299 301 [pEx] (by decide),
   by decide, by decide⟩

/-- C2: whatever the injected call does (succeed, fail, or get denied by
the breaker), `index` returns exactly one of the three tagged variants,
each carrying a payload; no exception reaches the caller. -/
theorem C2_always_returns_variant (s : EngineState) (now : Int)
    (outcome : CallOutcome) :
    ∃ p, (index s now outcome).result = ResilienceResult.Live p ∨
      (index s now outcome).result = ResilienceResult.Cached p ∨
      (index s now outcome).result = ResilienceResult.Fallback p := by
  simp only [index]
  split
  · exact ⟨_, Or.inl rfl⟩
  · split
    · split
      · exact ⟨get_fallback_products, Or.inr (Or.inr rfl)⟩
      · exact ⟨_, Or.inr (Or.inl rfl)⟩
    · exact ⟨get_fallback_products, Or.inr (Or.inr rfl)⟩

lemma index_error_cache (s : EngineState) (now : Int) (outcome : CallOutcome)
    (h : (allowAttempt s.breaker now).1 = false ∨ outcome = CallOutcome.failure) :
    (index s now outcome).result =
      match get_cached_products s.cache now with
      | some cached =>
          if cached.isEmpty then ResilienceResult.Fallback get_fallback_products
          else ResilienceResult.Cached cached
      | none => ResilienceResult.Fallback get_fallback_products := by
  rcases hA : allowAttempt s.breaker now with ⟨allowed, b1⟩
  cases allowed with
  | false =>
      simp only [index, CircuitBreaker.call, hA]
      cases hc : get_cached_products s.cache now with
      | none => rfl
      | some cached => cases cached <;> rfl
  | true =>
      cases h with
      | inl hfalse => rw [hA] at hfalse; exact Bool.noConfusion hfalse
      | inr hfail =>
          subst hfail
          simp only [index, CircuitBreaker.call, hA, fetch_from_backend]
          cases hc : get_cached_products s.cache now with
          | none => rfl
          | some cached => cases cached <;> rfl

/-- C1 as frozen is false on the code: the handler's cache test at
line 150 is Python truthiness (`if cached:`), so with a valid, unexpired
cache entry whose payload is the empty list a failing call yields
`Fallback`, not `Cached`.  The state below is reached through `Execute`
itself: a successful call at t = 0 whose backend payload is the empty
product list fills the cache; the failing call at t = 1 then finds a
valid cache entry (`get_cached_products` returns it) yet answers
`Fallback`. -/
theorem C1_counterexample :
    get_cached_products
        ((index ⟨CircuitBreaker.init 3 30, ⟨none, none, 300⟩⟩ 0
            (CallOutcome.success [])).engine).cache 1
      = some [] ∧
    (index (index ⟨CircuitBreaker.init 3 30, ⟨none, none, 300⟩⟩ 0
          (CallOutcome.success [])).engine
        1 CallOutcome.failure).result
      = ResilienceResult.Fallback get_fallback_products := by
  constructor
  · rfl
  · rfl

/-- C1 amended: the ladder holds with the cache step requiring a
non-empty payload — a permitted, successful call yields `Live`; on a
failed or denied attempt a valid cache entry with a non-empty payload
yields `Cached` (never `Fallback`); when no valid entry exists, or the
valid entry's payload is the empty list (the handler's truthiness test
treats it as absent), the result is `Fallback`. -/
theorem C1_degradation_ladder (s : EngineState) (now : Int)
    (outcome : CallOutcome) :
    (∀ p, (allowAttempt s.breaker now).1 = true →
      outcome = CallOutcome.success p →
      (index s now outcome).result = ResilienceResult.Live p) ∧
    ((allowAttempt s.breaker now).1 = false ∨ outcome = CallOutcome.failure →
      ∀ p, get_cached_products s.cache now = some p → p ≠ [] →
        (index s now outcome).result = ResilienceResult.Cached p) ∧
    ((allowAttempt s.breaker now).1 = false ∨ outcome = CallOutcome.failure →
      get_cached_products s.cache now = none ∨
        get_cached_products s.cache now = some ([] : Payload) →
      (index s now outcome).result
        = ResilienceResult.Fallback get_fallback_products) := by
  refine ⟨?_, ?_, ?_⟩
  · rintro p htrue rfl
    rcases hA : allowAttempt s.breaker now with ⟨allowed, b1⟩
    rw [hA] at htrue
    simp only at htrue
    subst htrue
    simp only [index, CircuitBreaker.call, hA, fetch_from_backend]
  · intro h p hget hne
    rw [index_error_cache s now outcome h, hget]
    cases p with
    | nil => exact absurd rfl hne
    | cons a as => rfl
  · intro h hcache
    rw [index_error_cache s now outcome h]
    rcases hcache with hc | hc
    · rw [hc]
    · rw [hc]
      rfl

theorem C1_degradation_ladder_witness :
    (index ⟨CircuitBreaker.init 3 30, cache_put ⟨none, none, 300⟩ [pEx] 0⟩ 1
        CallOutcome.failure).result = ResilienceResult.Cached [pEx] :=
  (C1_degradation_ladder
      ⟨CircuitBreaker.init 3 30, cache_put ⟨none, none, 300⟩ [pEx] 0⟩ 1
      CallOutcome.failure).2.1 (Or.inr rfl) [pEx] (by decide) (by decide)

lemma allowAttempt_snd_fields (b : CircuitBreaker) (now : Int) :
    (allowAttempt b now).2.failure_threshold = b.failure_threshold ∧
    (allowAttempt b now).2.failure_count = b.failure_count ∧
    (allowAttempt b now).2.last_failure_time = b.last_failure_time := by
  unfold allowAttempt
  cases hs : b.state <;> simp [hs]
  cases hl : b.last_failure_time <;> simp [hl]
  split <;> simp [hl]

lemma allowAttempt_snd_state (b : CircuitBreaker) (now : Int) :
    (allowAttempt b now).2.state = b.state ∨
      (b.state = CircuitState.OPEN ∧
        (allowAttempt b now).2.state = CircuitState.HALF_OPEN) := by
  unfold allowAttempt
  cases hs : b.state <;> simp [hs]
  cases hl : b.last_failure_time <;> simp [hl, hs]
  split <;> simp [hs]

lemma reachable_invariant {T : Nat} {d : Int} {b : CircuitBreaker}
    (hb : BreakerReachable T d b) :
    b.state = CircuitState.OPEN ∨ b.state = CircuitState.HALF_OPEN →
      b.failure_threshold ≤ b.failure_count ∧
      b.last_failure_time.isSome = true := by
  induction hb with
  | init =>
      rintro (h | h) <;> exact CircuitState.noConfusion h
  | step hb op ih =>
      rename_i b2
      cases op with
      | success =>
          rintro (h | h) <;> exact CircuitState.noConfusion h
      | failure now =>
          intro h
          simp only [applyOp, reportFailure] at h ⊢
          by_cases hth : b2.failure_threshold ≤ b2.failure_count + 1
          · rw [if_pos hth] at h ⊢
            exact ⟨hth, rfl⟩
          · rw [if_neg hth] at h ⊢
            simp only at h ⊢
            have := ih h
            exact ⟨by omega, rfl⟩
      | allow now =>
          intro h
          simp only [applyOp] at h ⊢
          obtain ⟨hth, hcnt, hlast⟩ := allowAttempt_snd_fields b2 now
          rw [hth, hcnt, hlast]
          rcases allowAttempt_snd_state b2 now with hst | ⟨hbO, _⟩
          · rw [hst] at h
            exact ih h
          · exact ih (Or.inl hbO)

/-- C10: in every breaker state reachable from construction via the public
operations, being OPEN or HALF_OPEN implies the failure count already
reached the threshold and a last failure time is recorded; hence in any
reachable HALF_OPEN state a single reported failure reaches the threshold
and reopens the circuit. -/
theorem C10_reachable_invariant (T : Nat) (d : Int) (b : CircuitBreaker)
    (now : Int)
    (hb : BreakerReachable T d b)
    (hs : b.state = CircuitState.OPEN ∨ b.state = CircuitState.HALF_OPEN) :
    b.failure_threshold ≤ b.failure_count ∧
    b.last_failure_time.isSome = true ∧
    (b.state = CircuitState.HALF_OPEN →
      (reportFailure b now).state = CircuitState.OPEN) := by
  obtain ⟨h1, h2⟩ := reachable_invariant hb hs
  refine ⟨h1, h2, fun _ => ?_⟩
  have hth : b.failure_threshold ≤ b.failure_count + 1 := by omega
  simp [reportFailure, hth]

/-- A breaker state reached through three failures (opening the circuit)
followed by a permitted probe query after the timeout window. -/
def bReached : CircuitBreaker :=
  applyOp (applyOp (applyOp (applyOp (CircuitBreaker.init 3 30)
    (BreakerOp.failure 0)) (BreakerOp.failure 1)) (BreakerOp.failure 2))
    (BreakerOp.allow 33)

theorem C10_reachable_invariant_witness :
    bReached.failure_threshold ≤ bReached.failure_count ∧
    bReached.last_failure_time.isSome = true ∧
    (bReached.state = CircuitState.HALF_OPEN →
      (reportFailure bReached 34).state = CircuitState.OPEN) :=
  C10_reachable_invariant 3 30 bReached 34
    (BreakerReachable.step (BreakerReachable.step (BreakerReachable.step
      (BreakerReachable.step BreakerReachable.init (BreakerOp.failure 0))
      (BreakerOp.failure 1)) (BreakerOp.failure 2)) (BreakerOp.allow 33))
    (Or.inr (by decide))
